import Mathlib

/-!
Shallow embedding of the Grades application core (src/main.py).

The program is a PyQt form. Its logic, stripped of widget wiring, is:
  calculateGrade  (main.py lines 90-109): five-branch threshold lookup;
  submitScores    (lines 61-88): validate raw score texts in order, compute
                  the maximum, render a message, append a tab line;
  saveResults     (lines 111-123): pad the score list to at least 4 entries
                  with zeros, write name, scores and final score tab-joined;
  modifyCsvFile   (lines 134-151): coerce each text to an integer if it is
                  purely digits else 0, pad, take the maximum, append a
                  comma-joined line.

Strings typed into the form are modelled as ASCII text: Python int() also
strips whitespace and accepts underscore separators, and str.isdigit also
accepts non-ASCII Unicode digits; none of the claims depend on those cases.
-/

namespace Grades

/-- True for the ASCII digit characters 0-9. -/
def isAsciiDigit (c : Char) : Bool :=
  decide ('0' ≤ c) && decide (c ≤ '9')

/-- Numeric value of a digit string, most significant digit first. -/
def digitsVal (l : List Char) : Nat :=
  l.foldl (fun acc c => acc * 10 + (c.toNat - 48)) 0

/-- Python int(s) on ASCII text: an optional sign followed by one or more
digits parses to an integer, anything else raises ValueError (here: none). -/
def pyInt (s : String) : Option Int :=
  match s.toList with
  | [] => none
  | '-' :: rest =>
      if rest.isEmpty then none
      else if rest.all isAsciiDigit then some (-(digitsVal rest : Int)) else none
  | '+' :: rest =>
      if rest.isEmpty then none
      else if rest.all isAsciiDigit then some ((digitsVal rest : Int)) else none
  | cs =>
      if cs.all isAsciiDigit then some ((digitsVal cs : Int)) else none

/-- Python str.isdigit on ASCII text: nonempty and every character a digit. -/
def pyIsdigit (s : String) : Bool :=
  !s.toList.isEmpty && s.toList.all isAsciiDigit

/-- calculateGrade (main.py lines 100-109): the five-branch if chain. -/
def calculateGrade (score : Int) : String :=
  if score ≥ 90 then "A"
  else if score ≥ 80 then "B"
  else if score ≥ 70 then "C"
  else if score ≥ 60 then "D"
  else "F"

/-- The one error text submitScores ever shows (main.py line 78), with the
1-based attempt index interpolated. -/
def errorMessage (i : Nat) : String :=
  "Invalid input for Score " ++ toString i ++ ". Please enter a number between 1 and 100."

/-- The validation loop of submitScores (main.py lines 69-81), with i the
0-based index of the first entry of the remaining list. An empty text
contributes 0; a nonempty text must parse as an integer in the range 1-100,
else the loop stops at once with the error message for that attempt. -/
def submitLoop (i : Nat) : List String → Except String (List Int)
  | [] => .ok []
  | t :: rest =>
    if t = "" then
      match submitLoop (i + 1) rest with
      | .error e => .error e
      | .ok scores => .ok (0 :: scores)
    else
      match pyInt t with
      | none => .error (errorMessage (i + 1))
      | some v =>
        if v < 1 ∨ 100 < v then .error (errorMessage (i + 1))
        else
          match submitLoop (i + 1) rest with
          | .error e => .error e
          | .ok scores => .ok (v :: scores)

/-- The validation pass over the whole entry list, indices starting at 1. -/
def submitValidate (entries : List String) : Except String (List Int) :=
  submitLoop 0 entries

/-- Python max(scores) if scores else 0 (main.py line 83). -/
def finalScore (scores : List Int) : Int :=
  match scores with
  | [] => 0
  | s :: rest => rest.foldl max s

/-- Python max on a list, which raises on an empty list (modelled as none). -/
def pyMax : List Int → Option Int
  | [] => none
  | s :: rest => some (rest.foldl max s)

/-- The padding step shared by both sinks (main.py lines 121 and 146):
append (4 - len) zeros; Python [0] * n is empty for n ≤ 0, matching
truncated Nat subtraction, so a list of 4 or more entries is unchanged. -/
def padScores (scores : List Int) : List Int :=
  scores ++ List.replicate (4 - scores.length) 0

/-- The tab-delimited line written by saveResults (main.py lines 122-123). -/
def serializeTab (name : String) (scores : List Int) (fs : Int) : String :=
  name ++ "\t" ++ String.intercalate "\t" (scores.map toString) ++ "\t" ++ toString fs ++ "\n"

/-- The full observable effect of one submitScores call: the label text set,
and the list of lines appended to grades.txt. -/
structure SubmitResult where
  message : String
  written : List String
  deriving Repr, DecidableEq

/-- submitScores (main.py lines 61-88): on a validation error the message is
shown and nothing is written; on success the grade message is shown and
saveResults appends one tab line built from the padded scores and the final
score computed before padding. -/
def submitScores (name : String) (entries : List String) : SubmitResult :=
  match submitValidate entries with
  | .error msg => ⟨msg, []⟩
  | .ok scores =>
    let fs := finalScore scores
    let grade := calculateGrade fs
    ⟨name ++ "\x27s grade: " ++ grade, [serializeTab name (padScores scores) fs]⟩

/-- The per-entry coercion of modifyCsvFile (main.py line 145):
int(text) if text.isdigit() else 0. -/
def commaCoerce (t : String) : Int :=
  if pyIsdigit t then ((digitsVal t.toList : Nat) : Int) else 0

/-- modifyCsvFile (main.py lines 144-151): coerce every entry, pad, take the
maximum of the padded list (none would model a Python max() crash), and
build the comma-joined line appended to the chosen file. -/
def modifyCsvLine (name : String) (entries : List String) : Option String :=
  let scores := padScores (entries.map commaCoerce)
  match pyMax scores with
  | none => none
  | some fs =>
      some (name ++ "," ++ String.intercalate "," (scores.map toString) ++ "," ++ toString fs ++ "\n")

/-- An entry the submitScores loop accepts: empty text, or text parsing as
an integer in the range 1-100 inclusive. -/
def entryOk (t : String) : Bool :=
  decide (t = "") ||
    match pyInt t with
    | none => false
    | some v => decide (1 ≤ v) && decide (v ≤ 100)

/-- The score an accepted entry contributes: 0 for empty text, else its
parsed integer value. -/
def entryVal (t : String) : Int :=
  if t = "" then 0 else (pyInt t).getD 0

lemma foldl_max_init_le (l : List Int) : ∀ a : Int, a ≤ l.foldl max a := by
  induction l with
  | nil => intro a; exact le_refl a
  | cons x xs ih => intro a; exact le_trans (le_max_left a x) (ih (max a x))

lemma foldl_max_le_of_mem (l : List Int) : ∀ a x : Int, x ∈ l → x ≤ l.foldl max a := by
  induction l with
  | nil => intro a x hx; cases hx
  | cons y ys ih =>
    intro a x hx
    rcases List.mem_cons.mp hx with rfl | hmem
    · exact le_trans (le_max_right a x) (foldl_max_init_le ys (max a x))
    · exact ih (max a y) x hmem

lemma foldl_max_mem_or (l : List Int) : ∀ a : Int, l.foldl max a = a ∨ l.foldl max a ∈ l := by
  induction l with
  | nil => intro a; exact Or.inl rfl
  | cons y ys ih =>
    intro a
    rcases ih (max a y) with h | h
    · rcases max_choice a y with he | he
      · left
        show ys.foldl max (max a y) = a
        rw [h, he]
      · right
        show ys.foldl max (max a y) ∈ y :: ys
        rw [h, he]
        exact List.mem_cons_self y ys
    · right
      exact List.mem_cons_of_mem y h

lemma finalScore_mem (a : Int) (rest : List Int) : finalScore (a :: rest) ∈ a :: rest := by
  show rest.foldl max a ∈ a :: rest
  rcases foldl_max_mem_or rest a with h | h
  · rw [h]; exact List.mem_cons_self a rest
  · exact List.mem_cons_of_mem a h

lemma submitLoop_cons_ok (t : String) (i : Nat) (rest : List String) (h : entryOk t = true) :
    submitLoop i (t :: rest) = (submitLoop (i + 1) rest).map (fun l => entryVal t :: l) := by
  by_cases ht : t = ""
  · subst ht
    simp only [submitLoop, if_pos rfl, entryVal]
    cases submitLoop (i + 1) rest <;> rfl
  · rcases hp : pyInt t with _ | v
    · exfalso
      simp [entryOk, ht, hp] at h
    · have hv : 1 ≤ v ∧ v ≤ 100 := by simpa [entryOk, ht, hp] using h
      simp only [submitLoop, if_neg ht, hp]
      rw [if_neg (by omega)]
      simp only [entryVal, if_neg ht, hp, Option.getD_some]
      cases submitLoop (i + 1) rest <;> rfl

lemma submitLoop_cons_err (t : String) (i : Nat) (rest : List String) (h : entryOk t = false) :
    submitLoop i (t :: rest) = .error (errorMessage (i + 1)) := by
  have ht : t ≠ "" := by
    intro he
    subst he
    simp [entryOk] at h
  rcases hp : pyInt t with _ | v
  · simp only [submitLoop, if_neg ht, hp]
  · have hv : v < 1 ∨ 100 < v := by
      have := h
      simp [entryOk, ht, hp] at this
      omega
    simp only [submitLoop, if_neg ht, hp]
    rw [if_pos hv]

lemma submitLoop_append_ok (pre : List String) : ∀ (i : Nat) (rest : List String),
    (∀ t ∈ pre, entryOk t = true) →
    submitLoop i (pre ++ rest) =
      (submitLoop (i + pre.length) rest).map (fun l => pre.map entryVal ++ l) := by
  induction pre with
  | nil =>
    intro i rest _
    simp only [List.nil_append, List.map_nil, List.length_nil, Nat.add_zero]
    cases submitLoop i rest <;> rfl
  | cons t ts ih =>
    intro i rest h
    have ht : entryOk t = true := h t (List.mem_cons_self t ts)
    have hts : ∀ u ∈ ts, entryOk u = true := fun u hu => h u (List.mem_cons_of_mem t hu)
    rw [List.cons_append, submitLoop_cons_ok t i (ts ++ rest) ht, ih (i + 1) rest hts]
    have hidx : i + 1 + ts.length = i + (t :: ts).length := by
      simp [List.length_cons]
      omega
    rw [hidx]
    cases submitLoop (i + (t :: ts).length) rest <;> rfl

lemma submitLoop_error_shape (l : List String) : ∀ (i : Nat) (msg : String),
    submitLoop i l = .error msg → ∃ j, j < l.length ∧ msg = errorMessage (i + j + 1) := by
  induction l with
  | nil =>
    intro i msg h
    exact Except.noConfusion h
  | cons t rest ih =>
    intro i msg h
    by_cases hok : entryOk t = true
    · rw [submitLoop_cons_ok t i rest hok] at h
      cases hsub : submitLoop (i + 1) rest with
      | ok scores =>
        rw [hsub] at h
        exact Except.noConfusion h
      | error e =>
        rw [hsub] at h
        injection h with he
        obtain ⟨j, hj, hmsg⟩ := ih (i + 1) e hsub
        refine ⟨j + 1, by simpa using Nat.succ_lt_succ hj, ?_⟩
        rw [← he, hmsg]
        have : i + 1 + j + 1 = i + (j + 1) + 1 := by omega
        rw [this]
    · rw [submitLoop_cons_err t i rest (by simpa using hok)] at h
      injection h with he
      exact ⟨0, by simp, he.symm⟩

lemma submitLoop_ok_inv (t : String) (i : Nat) (rest : List String) (scores : List Int)
    (h : submitLoop i (t :: rest) = .ok scores) :
    ∃ v sc, scores = v :: sc ∧ (v = 0 ∨ (1 ≤ v ∧ v ≤ 100)) ∧
      submitLoop (i + 1) rest = .ok sc := by
  by_cases ht : t = ""
  · subst ht
    simp only [submitLoop, if_pos rfl] at h
    cases hsub : submitLoop (i + 1) rest with
    | error e =>
      rw [hsub] at h
      exact Except.noConfusion h
    | ok sc =>
      rw [hsub] at h
      injection h with h1
      exact ⟨0, sc, h1.symm, Or.inl rfl, rfl⟩
  · rcases hp : pyInt t with _ | v
    · simp only [submitLoop, if_neg ht, hp] at h
      exact Except.noConfusion h
    · simp only [submitLoop, if_neg ht, hp] at h
      by_cases hv : v < 1 ∨ 100 < v
      · rw [if_pos hv] at h
        exact Except.noConfusion h
      · rw [if_neg hv] at h
        cases hsub : submitLoop (i + 1) rest with
        | error e =>
          rw [hsub] at h
          exact Except.noConfusion h
        | ok sc =>
          rw [hsub] at h
          injection h with h1
          exact ⟨v, sc, h1.symm, Or.inr (by omega), rfl⟩

lemma submitLoop_ok_mem (l : List String) : ∀ (i : Nat) (scores : List Int),
    submitLoop i l = .ok scores → ∀ s ∈ scores, s = 0 ∨ (1 ≤ s ∧ s ≤ 100) := by
  induction l with
  | nil =>
    intro i scores h s hs
    injection h with h1
    rw [← h1] at hs
    cases hs
  | cons t rest ih =>
    intro i scores h s hs
    obtain ⟨v, sc, rfl, hv, hsub⟩ := submitLoop_ok_inv t i rest scores h
    rcases List.mem_cons.mp hs with rfl | hmem
    · exact hv
    · exact ih (i + 1) sc hsub s hmem

lemma calculateGrade_mem_list (x : Int) :
    calculateGrade x ∈ (["A", "B", "C", "D", "F"] : List String) := by
  unfold calculateGrade
  split_ifs <;> simp

lemma padScores_length_ge (scores : List Int) : 4 ≤ (padScores scores).length := by
  simp only [padScores, List.length_append, List.length_replicate]
  omega

lemma padScores_ne_nil (scores : List Int) : padScores scores ≠ [] := by
  intro h
  have h4 := padScores_length_ge scores
  rw [h] at h4
  simp at h4

/-- C1: calculateGrade is a total function on integers returning A for
scores of 90 and above, B on 80-89, C on 70-79, D on 60-69 and F below 60,
with the same thresholds applying to negative and over-100 inputs. -/
theorem calculateGrade_thresholds (s : Int) :
    (90 ≤ s → calculateGrade s = "A") ∧
    (80 ≤ s ∧ s < 90 → calculateGrade s = "B") ∧
    (70 ≤ s ∧ s < 80 → calculateGrade s = "C") ∧
    (60 ≤ s ∧ s < 70 → calculateGrade s = "D") ∧
    (s < 60 → calculateGrade s = "F") := by
  unfold calculateGrade
  refine ⟨?_, ?_, ?_, ?_, ?_⟩ <;> intro h <;> split_ifs <;> first | rfl | omega

/-- Witness for C1 at the concrete input 95. -/
theorem calculateGrade_thresholds_witness : calculateGrade 95 = "A" :=
  (calculateGrade_thresholds 95).1 (by norm_num)

/-- C2 counterexample: a parse failure and an out-of-range failure at the
same position yield literally identical error values, so the error carries
no reason distinguishing the two failure kinds, contrary to the claim. -/
theorem submitValidate_reason_collapsed :
    submitValidate ["abc"] = Except.error (errorMessage 1) ∧
    submitValidate ["101"] = Except.error (errorMessage 1) ∧
    submitValidate ["abc"] = submitValidate ["101"] := by
  refine ⟨?_, ?_, ?_⟩ <;> rfl

/-- C2 (amended): entries are examined in order; a list whose entries are
all acceptable maps each empty entry to 0 and each nonempty entry to its
parsed value; at the first unacceptable entry processing stops regardless
of the remaining entries and the error is the single uniform message
carrying the 1-based index of the failing attempt (no reason field
distinguishing a parse failure from a range failure); in particular
["50", "", "101"] fails with the message for index 3. -/
theorem submitValidate_first_error :
    (∀ entries : List String, (∀ t ∈ entries, entryOk t = true) →
        submitValidate entries = .ok (entries.map entryVal)) ∧
    (∀ (pre : List String) (x : String) (rest : List String),
        (∀ t ∈ pre, entryOk t = true) → entryOk x = false →
        submitValidate (pre ++ x :: rest) = .error (errorMessage (pre.length + 1))) ∧
    submitValidate ["50", "", "101"] = .error (errorMessage 3) := by
  refine ⟨?_, ?_, by rfl⟩
  · intro entries h
    have happ := submitLoop_append_ok entries 0 [] h
    rw [List.append_nil] at happ
    rw [submitValidate, happ]
    simp [submitLoop, Except.map]
  · intro pre x rest hpre hx
    have happ := submitLoop_append_ok pre 0 (x :: rest) hpre
    rw [submitValidate, happ, submitLoop_cons_err x (0 + pre.length) rest hx]
    have h0 : 0 + pre.length = pre.length := Nat.zero_add _
    rw [h0]
    rfl

/-- Witness for C2 (amended): the second conjunct applied to a concrete
split, showing the stop at position 2 with the arbitrary tail untouched. -/
theorem submitValidate_first_error_witness :
    submitValidate (["50"] ++ "abc" :: ["7"]) = .error (errorMessage 2) := by
  have h := submitValidate_first_error.2.1 ["50"] "abc" ["7"] (by decide) (by decide)
  simpa using h

/-- C3: the final score is the maximum of the parsed scores when the list
is nonempty (it is an element of the list and an upper bound of it), and 0
when the list is empty. -/
theorem finalScore_is_max (scores : List Int) :
    (scores = [] → finalScore scores = 0) ∧
    (scores ≠ [] → finalScore scores ∈ scores ∧ ∀ x ∈ scores, x ≤ finalScore scores) := by
  constructor
  · intro h
    subst h
    rfl
  · intro h
    cases scores with
    | nil => exact absurd rfl h
    | cons a rest =>
      refine ⟨finalScore_mem a rest, ?_⟩
      intro x hx
      rcases List.mem_cons.mp hx with rfl | hmem
      · exact foldl_max_init_le rest x
      · exact foldl_max_le_of_mem rest a x hmem

/-- Witness for C3 at the concrete list [50, 70, 60]. -/
theorem finalScore_is_max_witness :
    finalScore [50, 70, 60] ∈ ([50, 70, 60] : List Int) ∧
    ∀ x ∈ ([50, 70, 60] : List Int), x ≤ finalScore [50, 70, 60] :=
  (finalScore_is_max [50, 70, 60]).2 (by decide)

/-- C4: padding never truncates: a list of fewer than 4 scores gets exactly
(4 - length) zeros appended and ends with exactly 4 elements, a list of 4
or more scores is unchanged; in particular the 5 scores
[95, 88, 100, 92, 70] stay 5 columns with final score 100 and grade A. -/
theorem padScores_pad_only (scores : List Int) :
    (scores.length < 4 →
        padScores scores = scores ++ List.replicate (4 - scores.length) 0 ∧
        (padScores scores).length = 4) ∧
    (4 ≤ scores.length → padScores scores = scores) ∧
    padScores [95, 88, 100, 92, 70] = [95, 88, 100, 92, 70] ∧
    finalScore [95, 88, 100, 92, 70] = 100 ∧
    calculateGrade (finalScore [95, 88, 100, 92, 70]) = "A" := by
  refine ⟨?_, ?_, by decide, by decide, by decide⟩
  · intro h
    refine ⟨rfl, ?_⟩
    simp only [padScores, List.length_append, List.length_replicate]
    omega
  · intro h
    have h0 : 4 - scores.length = 0 := by omega
    simp [padScores, h0]

/-- Witness for C4 at the concrete lists [50] (padded) and
[95, 88, 100, 92, 70] (unchanged). -/
theorem padScores_pad_only_witness :
    (padScores [50] = [50] ++ List.replicate (4 - ([50] : List Int).length) 0 ∧
      (padScores ([50] : List Int)).length = 4) ∧
    padScores [95, 88, 100, 92, 70] = [95, 88, 100, 92, 70] :=
  ⟨(padScores_pad_only [50]).1 (by decide), (padScores_pad_only [50]).2.2.1⟩

/-- C5: the tab-delimited serialization is the name, the padded scores and
the final score joined by single tabs and terminated by a newline, and the
record built from name Ann and the single score 50 produces exactly the
line Ann TAB 50 TAB 0 TAB 0 TAB 0 TAB 50 NEWLINE, which is also the one
line the submit path writes for that input. -/
theorem serializeTab_format :
    (∀ (name : String) (scores : List Int) (fs : Int),
        serializeTab name scores fs =
          name ++ "\t" ++ String.intercalate "\t" (scores.map toString) ++ "\t" ++
            toString fs ++ "\n") ∧
    serializeTab "Ann" (padScores [50]) (finalScore [50]) = "Ann\t50\t0\t0\t0\t50\n" ∧
    (submitScores "Ann" ["50"]).written = ["Ann\t50\t0\t0\t0\t50\n"] := by
  refine ⟨fun _ _ _ => rfl, by decide, by decide⟩

/-- C6: when validation fails, the submission is aborted atomically:
nothing at all is written to the sink, and the message shown is the error
message naming the 1-based index of some attempt within the entry list. -/
theorem submitScores_abort_no_write (name : String) (entries : List String)
    (h : ∃ msg, submitValidate entries = .error msg) :
    (submitScores name entries).written = [] ∧
    ∃ k, 1 ≤ k ∧ k ≤ entries.length ∧ (submitScores name entries).message = errorMessage k := by
  obtain ⟨msg, hmsg⟩ := h
  obtain ⟨j, hj, he⟩ := submitLoop_error_shape entries 0 msg hmsg
  constructor
  · simp [submitScores, hmsg]
  · refine ⟨j + 1, by omega, by omega, ?_⟩
    have hz : (0 : Nat) + j + 1 = j + 1 := by omega
    rw [hz] at he
    simp [submitScores, hmsg, he]

/-- Witness for C6 at the concrete failing input ["abc"]. -/
theorem submitScores_abort_no_write_witness :
    (submitScores "X" ["abc"]).written = [] ∧
    ∃ k, 1 ≤ k ∧ k ≤ (["abc"] : List String).length ∧
      (submitScores "X" ["abc"]).message = errorMessage k :=
  submitScores_abort_no_write "X" ["abc"] ⟨errorMessage 1, by rfl⟩

/-- C7: the comma sink path never raises a validation error: the appended
line always exists for every entry list, any entry that is not purely
digits is silently coerced to 0, and for example the entries [abc, 50]
yield the comma-joined line Zed,0,50,0,0,50 with a newline. -/
theorem modifyCsv_always_appends (name : String) (entries : List String) :
    (modifyCsvLine name entries).isSome = true ∧
    (∀ t : String, pyIsdigit t = false → commaCoerce t = 0) ∧
    modifyCsvLine "Zed" ["abc", "50"] = some "Zed,0,50,0,0,50\n" := by
  refine ⟨?_, ?_, by decide⟩
  · obtain ⟨a, rest, hl⟩ := List.exists_cons_of_ne_nil (padScores_ne_nil (entries.map commaCoerce))
    simp [modifyCsvLine, hl, pyMax]
  · intro t h
    simp [commaCoerce, h]

/-- Witness for C7: the coercion conjunct applied to the concrete
non-numeric text xy. -/
theorem modifyCsv_always_appends_witness : commaCoerce "xy" = 0 :=
  (modifyCsv_always_appends "A" []).2.1 "xy" (by decide)

/-- C8: the comma sink path applies no range check: every purely-digit
entry is used at its parsed value unchanged, so 999 is written as 999 and
becomes the final score of its row. -/
theorem modifyCsv_no_range_check :
    (∀ t : String, pyIsdigit t = true → commaCoerce t = ((digitsVal t.toList : Nat) : Int)) ∧
    commaCoerce "999" = 999 ∧
    modifyCsvLine "Pat" ["999"] = some "Pat,999,0,0,0,999\n" := by
  refine ⟨?_, by decide, by decide⟩
  intro t h
  simp [commaCoerce, h]

/-- Witness for C8: the first conjunct applied to the concrete digit text
999, whose value 999 lies outside the range 1-100. -/
theorem modifyCsv_no_range_check_witness :
    commaCoerce "999" = ((digitsVal "999".toList : Nat) : Int) :=
  modifyCsv_no_range_check.1 "999" (by decide)

/-- C9: invariant of the submit path: every accepted score is 0 or lies in
the range 1-100, hence the final score lies in the range 0-100 and the
computed grade is one of A, B, C, D, F. -/
theorem submitScores_invariant (entries : List String) (scores : List Int)
    (h : submitValidate entries = .ok scores) :
    (∀ s ∈ scores, s = 0 ∨ (1 ≤ s ∧ s ≤ 100)) ∧
    0 ≤ finalScore scores ∧ finalScore scores ≤ 100 ∧
    calculateGrade (finalScore scores) ∈ (["A", "B", "C", "D", "F"] : List String) := by
  have hmem := submitLoop_ok_mem entries 0 scores h
  have hb : 0 ≤ finalScore scores ∧ finalScore scores ≤ 100 := by
    cases scores with
    | nil => simp [finalScore]
    | cons a rest =>
      have hm := hmem _ (finalScore_mem a rest)
      omega
  exact ⟨hmem, hb.1, hb.2, calculateGrade_mem_list _⟩

/-- Witness for C9 at the concrete accepted input ["50", ""]. -/
theorem submitScores_invariant_witness :
    (∀ s ∈ ([50, 0] : List Int), s = 0 ∨ (1 ≤ s ∧ s ≤ 100)) ∧
    0 ≤ finalScore [50, 0] ∧ finalScore [50, 0] ≤ 100 ∧
    calculateGrade (finalScore [50, 0]) ∈ (["A", "B", "C", "D", "F"] : List String) :=
  submitScores_invariant ["50", ""] [50, 0] (by rfl)

/-- C10: in the comma sink path the maximum is taken only after padding, so
it always sees a list of at least 4 elements and is well defined even with
zero entries; with zero entries the final score is 0 and the row for name
Kim is Kim,0,0,0,0,0 with a newline. -/
theorem commaFinal_well_defined (entries : List String) :
    4 ≤ (padScores (entries.map commaCoerce)).length ∧
    (pyMax (padScores (entries.map commaCoerce))).isSome = true ∧
    (entries = [] → pyMax (padScores (entries.map commaCoerce)) = some 0) ∧
    modifyCsvLine "Kim" [] = some "Kim,0,0,0,0,0\n" := by
  refine ⟨padScores_length_ge _, ?_, ?_, by decide⟩
  · obtain ⟨a, rest, hl⟩ := List.exists_cons_of_ne_nil (padScores_ne_nil (entries.map commaCoerce))
    simp [hl, pyMax]
  · intro h
    subst h
    decide

/-- Witness for C10 at the empty entry list. -/
theorem commaFinal_well_defined_witness :
    pyMax (padScores (([] : List String).map commaCoerce)) = some 0 :=
  (commaFinal_well_defined []).2.2.1 rfl

end Grades
